import Mathlib

/-
  Verification development for the livestock-interview-challenge repository.

  Shallow embedding of the request-shielding layer:
  - payload compression (apps/api/src/services/cache-service.ts, compress/decompress):
    Node Buffer base64 over the serialized byte stream; bytes are modelled as
    naturals < 256 and the base64 text as its list of character codes;
  - circuit breaker (cache-service.ts, isCircuitOpen/recordFailure/resetCircuitBreaker);
  - cache-aside engine (cache-service.ts, cacheGetOrSet): state passing with explicit
    outcomes for the store read and the fire-and-forget store write; the JS event loop
    runs a rejection handler of an already-initiated write after the synchronous
    remainder of the call, so the write-failure recordFailure is applied after
    resetCircuitBreaker within the same call;
  - sliding-window rate limiter (apps/api/src/middleware/rate-limiter.ts, active
    implementation at the bottom of the file);
  - cache key generator (apps/api/src/config/redis.ts, CacheKeyGenerator): strings
    are modelled as lists of characters;
  - cache statistics (cache-service.ts, getCacheStats) over the rationals.

  JSON.stringify / JSON.parse are external library functions; theorems take the
  serialization as a parameter together with its round-trip property at the
  relevant value.
-/

/-- Base64 alphabet of Buffer.toString, as character codes: A-Z, a-z, 0-9, plus, slash. -/
def b64EncTable (n : Nat) : Nat :=
  if n < 26 then 65 + n
  else if n < 52 then 97 + (n - 26)
  else if n < 62 then 48 + (n - 52)
  else if n = 62 then 43
  else 47

/-- Inverse base64 alphabet used by Buffer.from with base64 encoding. -/
def b64DecTable (c : Nat) : Nat :=
  if 65 ≤ c ∧ c ≤ 90 then c - 65
  else if 97 ≤ c ∧ c ≤ 122 then c - 97 + 26
  else if 48 ≤ c ∧ c ≤ 57 then c - 48 + 52
  else if c = 43 then 62
  else if c = 47 then 63
  else 0

/-- Buffer.from(data).toString of base64: groups of three bytes become four
characters, with 61 (the equals sign) as padding. Mirrors compress in
cache-service.ts at the byte level. -/
def b64Encode : List Nat → List Nat
  | a :: b :: c :: rest =>
      b64EncTable (a / 4) :: b64EncTable ((a % 4) * 16 + b / 16) ::
      b64EncTable ((b % 16) * 4 + c / 64) :: b64EncTable (c % 64) :: b64Encode rest
  | [a, b] => [b64EncTable (a / 4), b64EncTable ((a % 4) * 16 + b / 16),
               b64EncTable ((b % 16) * 4), 61]
  | [a] => [b64EncTable (a / 4), b64EncTable ((a % 4) * 16), 61, 61]
  | [] => []

/-- Recombine sextets into bytes, dropping an incomplete trailing byte. -/
def b64Bytes : List Nat → List Nat
  | a :: b :: c :: d :: rest =>
      (a * 4 + b / 16) :: ((b % 16) * 16 + c / 4) :: ((c % 4) * 64 + d) :: b64Bytes rest
  | [a, b, c] => [a * 4 + b / 16, (b % 16) * 16 + c / 4]
  | [a, b] => [a * 4 + b / 16]
  | [_] => []
  | [] => []

/-- Buffer.from(data, base64).toString: padding is ignored, characters are mapped
back to sextets and recombined. Mirrors decompress in cache-service.ts. -/
def b64Decode (s : List Nat) : List Nat :=
  b64Bytes ((s.filter (· != 61)).map b64DecTable)

/-- The sextet stream of the base64 encoding, before the alphabet is applied. -/
def b64Sextets : List Nat → List Nat
  | a :: b :: c :: rest =>
      a / 4 :: ((a % 4) * 16 + b / 16) :: ((b % 16) * 4 + c / 64) :: c % 64 :: b64Sextets rest
  | [a, b] => [a / 4, (a % 4) * 16 + b / 16, (b % 16) * 4]
  | [a] => [a / 4, (a % 4) * 16]
  | [] => []

theorem b64EncTable_ne_61 : ∀ n < 64, b64EncTable n ≠ 61 := by decide

theorem b64DecTable_encTable : ∀ n < 64, b64DecTable (b64EncTable n) = n := by decide

theorem b64Encode_ne_nil (l : List Nat) (h : l ≠ []) : b64Encode l ≠ [] := by
  match l with
  | [] => exact absurd rfl h
  | [a] => simp [b64Encode]
  | [a, b] => simp [b64Encode]
  | a :: b :: c :: rest => simp [b64Encode]

theorem b64Sextets_lt (l : List Nat) (h : ∀ x ∈ l, x < 256) :
    ∀ s ∈ b64Sextets l, s < 64 := by
  match l with
  | [] => simp [b64Sextets]
  | [a] =>
    have ha : a < 256 := h a (by simp)
    simp only [b64Sextets, List.mem_cons, List.not_mem_nil, or_false]
    rintro s (rfl | rfl) <;> omega
  | [a, b] =>
    have ha : a < 256 := h a (by simp)
    have hb : b < 256 := h b (by simp)
    simp only [b64Sextets, List.mem_cons, List.not_mem_nil, or_false]
    rintro s (rfl | rfl | rfl) <;> omega
  | a :: b :: c :: rest =>
    have ha : a < 256 := h a (by simp)
    have hb : b < 256 := h b (by simp)
    have hc : c < 256 := h c (by simp)
    have ih := b64Sextets_lt rest (fun x hx => h x (by simp [hx]))
    simp only [b64Sextets, List.mem_cons]
    rintro s (rfl | rfl | rfl | rfl | hs)
    · omega
    · omega
    · omega
    · omega
    · exact ih s hs

theorem b64Encode_filter (l : List Nat) (h : ∀ x ∈ l, x < 256) :
    (b64Encode l).filter (· != 61) = (b64Sextets l).map b64EncTable := by
  have hs := b64Sextets_lt l h
  match l with
  | [] => rfl
  | [a] =>
    simp only [b64Sextets, List.mem_cons, List.not_mem_nil, or_false] at hs
    have h1 := b64EncTable_ne_61 _ (hs _ (Or.inl rfl))
    have h2 := b64EncTable_ne_61 _ (hs _ (Or.inr rfl))
    simp [b64Encode, b64Sextets, List.filter_cons, h1, h2]
  | [a, b] =>
    simp only [b64Sextets, List.mem_cons, List.not_mem_nil, or_false] at hs
    have h1 := b64EncTable_ne_61 _ (hs _ (Or.inl rfl))
    have h2 := b64EncTable_ne_61 _ (hs _ (Or.inr (Or.inl rfl)))
    have h3 := b64EncTable_ne_61 _ (hs _ (Or.inr (Or.inr rfl)))
    simp [b64Encode, b64Sextets, List.filter_cons, h1, h2, h3]
  | a :: b :: c :: rest =>
    have ih := b64Encode_filter rest (fun x hx => h x (by simp [hx]))
    simp only [b64Sextets, List.mem_cons] at hs
    have h1 := b64EncTable_ne_61 _ (hs _ (Or.inl rfl))
    have h2 := b64EncTable_ne_61 _ (hs _ (Or.inr (Or.inl rfl)))
    have h3 := b64EncTable_ne_61 _ (hs _ (Or.inr (Or.inr (Or.inl rfl))))
    have h4 := b64EncTable_ne_61 _ (hs _ (Or.inr (Or.inr (Or.inr (Or.inl rfl)))))
    simp [b64Encode, b64Sextets, List.filter_cons, h1, h2, h3, h4, ih]

theorem b64Bytes_sextets (l : List Nat) (h : ∀ x ∈ l, x < 256) :
    b64Bytes (b64Sextets l) = l := by
  match l with
  | [] => rfl
  | [a] =>
    have ha : a < 256 := h a (by simp)
    simp only [b64Sextets, b64Bytes, List.cons.injEq, and_true]
    omega
  | [a, b] =>
    have ha : a < 256 := h a (by simp)
    have hb : b < 256 := h b (by simp)
    simp only [b64Sextets, b64Bytes, List.cons.injEq, and_true]
    omega
  | a :: b :: c :: rest =>
    have ha : a < 256 := h a (by simp)
    have hb : b < 256 := h b (by simp)
    have hc : c < 256 := h c (by simp)
    have ih := b64Bytes_sextets rest (fun x hx => h x (by simp [hx]))
    simp only [b64Sextets, b64Bytes, List.cons.injEq, ih, and_true]
    omega

theorem b64Sextets_map_dec (l : List Nat) (h : ∀ x ∈ l, x < 256) :
    ((b64Sextets l).map b64EncTable).map b64DecTable = b64Sextets l := by
  have hs := b64Sextets_lt l h
  rw [List.map_map]
  apply List.map_congr_left ?_ |>.trans (List.map_id _)
  intro s hm
  exact b64DecTable_encTable s (hs s hm)

theorem b64_roundtrip (l : List Nat) (h : ∀ x ∈ l, x < 256) :
    b64Decode (b64Encode l) = l := by
  rw [b64Decode, b64Encode_filter l h, b64Sextets_map_dec l h, b64Bytes_sextets l h]

/-- Process-lifetime cache counters (cache-service.ts, CacheStats). -/
structure CacheStats where
  hits : Nat
  misses : Nat
  errors : Nat
  totalRequests : Nat
deriving DecidableEq, Repr

/-- Circuit breaker state (cache-service.ts, field circuitBreaker). Times are
millisecond timestamps as naturals. -/
structure BreakerState where
  failures : Nat
  lastFailure : Nat
  isOpen : Bool
deriving DecidableEq, Repr

/-- maxFailures of CacheService. -/
def maxFailures : Nat := 5

/-- resetTimeout of CacheService, in milliseconds. -/
def resetTimeout : Nat := 30000

/-- isCircuitOpen of cache-service.ts: returns the reported flag together with the
possibly reset breaker state. JS computes now minus lastFailure on numbers; with
monotone clocks the value is nonnegative, and for a negative difference both the
JS comparison and the truncated natural subtraction leave the breaker open, so
natural subtraction is a faithful embedding. -/
def isCircuitOpenS (b : BreakerState) (now : Nat) : Bool × BreakerState :=
  if !b.isOpen then (false, b)
  else if now - b.lastFailure > resetTimeout then
    (false, { b with isOpen := false, failures := 0 })
  else (true, b)

/-- recordFailure of cache-service.ts: increment the counter, stamp the time,
open the breaker when the incremented counter reaches maxFailures. -/
def recordFailureS (b : BreakerState) (now : Nat) : BreakerState :=
  if b.failures + 1 ≥ maxFailures then ⟨b.failures + 1, now, true⟩
  else ⟨b.failures + 1, now, b.isOpen⟩

/-- resetCircuitBreaker of cache-service.ts. -/
def resetCircuitBreakerS (b : BreakerState) : BreakerState :=
  if b.failures > 0 then { b with failures := 0 } else b

/-- The external key-value store, as an association list from keys to the stored
byte streams; TTL is accepted but not modelled since no claim involves expiry
within a run. -/
abbrev CacheStore : Type := List (String × List Nat)

/-- redis.get of a key. -/
def lookupStore (store : CacheStore) (key : String) : Option (List Nat) :=
  (store.find? (fun kv => kv.1 == key)).map (fun kv => kv.2)

/-- redis.setEx: overwrite the entry for a key. -/
def storeSet (store : CacheStore) (key : String) (v : List Nat) : CacheStore :=
  (key, v) :: store.filter (fun kv => kv.1 != key)

/-- The in-process state owned by the CacheService instance plus the external store. -/
structure CacheState where
  stats : CacheStats
  breaker : BreakerState
  store : CacheStore
deriving DecidableEq

/-- Observable outcome of one cacheGetOrSet call: the returned or propagated
value, the final state, and how many fetcher invocations, store read attempts
and store write attempts the call performed. -/
structure CallOutcome (ε α : Type) where
  result : Except ε α
  state : CacheState
  fetcherCalls : Nat
  storeReads : Nat
  storeWrites : Nat

/-- The catch block of cacheGetOrSet: increment the error counter, record a
breaker failure, and fall back to one more fetcher invocation whose outcome is
the call's outcome. idx is the index of that invocation. -/
def catchPath {ε α : Type} (st : CacheState) (fetcher : Nat → Except ε α)
    (idx : Nat) (now : Nat) (reads writes : Nat) : CallOutcome ε α :=
  { result := fetcher idx
    state := { st with stats := { st.stats with errors := st.stats.errors + 1 },
                       breaker := recordFailureS st.breaker now }
    fetcherCalls := idx + 1
    storeReads := reads
    storeWrites := writes }

/-- The cache-miss branch of cacheGetOrSet: count the miss, invoke the fetcher,
serialize (optionally compress) and write with TTL fire-and-forget, reset the
breaker. A failed write does not change the store; its rejection handler runs
after the synchronous resetCircuitBreaker, so recordFailureS is applied last. A
fetcher failure is caught by the surrounding catch block. -/
def cacheMissPath {ε α : Type} (st : CacheState) (key : String)
    (fetcher : Nat → Except ε α) (ttl : Nat) (compressFlag : Bool)
    (stringify : α → List Nat) (now : Nat) (setOk : Bool) : CallOutcome ε α :=
  let st := { st with stats := { st.stats with misses := st.stats.misses + 1 } }
  match fetcher 0 with
  | Except.error _ => catchPath st fetcher 1 now 1 0
  | Except.ok v =>
    let serialized := stringify v
    let toStore := if compressFlag then b64Encode serialized else serialized
    if setOk then
      { result := Except.ok v
        state := { st with store := storeSet st.store key toStore,
                           breaker := resetCircuitBreakerS st.breaker }
        fetcherCalls := 1, storeReads := 1, storeWrites := 1 }
    else
      { result := Except.ok v
        state := { st with breaker := recordFailureS (resetCircuitBreakerS st.breaker) now }
        fetcherCalls := 1, storeReads := 1, storeWrites := 1 }

/-- cacheGetOrSet of cache-service.ts. fetcher gives the outcome of its n-th
invocation within this call; getOk and setOk say whether the store read and
write operations succeed. An entry holding the empty byte stream is falsy in
the JS truthiness test on the cached string and is treated as a miss.
JSON.parse on the hit path is modelled by the total function parseFn. -/
def cacheGetOrSet {ε α : Type} (st : CacheState) (key : String)
    (fetcher : Nat → Except ε α) (ttl : Nat) (compressFlag : Bool)
    (stringify : α → List Nat) (parseFn : List Nat → α)
    (now : Nat) (getOk setOk : Bool) : CallOutcome ε α :=
  let st := { st with stats := { st.stats with totalRequests := st.stats.totalRequests + 1 } }
  let checked := isCircuitOpenS st.breaker now
  let st := { st with breaker := checked.2 }
  if checked.1 then
    match fetcher 0 with
    | Except.ok v =>
      { result := Except.ok v, state := st, fetcherCalls := 1, storeReads := 0, storeWrites := 0 }
    | Except.error _ => catchPath st fetcher 1 now 0 0
  else if getOk then
    match lookupStore st.store key with
    | some (c :: cs) =>
      let st := { st with stats := { st.stats with hits := st.stats.hits + 1 } }
      let data := if compressFlag then b64Decode (c :: cs) else (c :: cs)
      { result := Except.ok (parseFn data), state := st,
        fetcherCalls := 0, storeReads := 1, storeWrites := 0 }
    | some [] => cacheMissPath st key fetcher ttl compressFlag stringify now setOk
    | none => cacheMissPath st key fetcher ttl compressFlag stringify now setOk
  else
    catchPath st fetcher 0 now 1 0

/-- A sequence of recorded breaker failures at the given timestamps. -/
def applyFailures (b : BreakerState) (ts : List Nat) : BreakerState :=
  ts.foldl recordFailureS b

/-- Result of one admission check (rate-limiter.ts, CheckResult). -/
structure CheckResult where
  exceeded : Bool
  count : Nat
  remaining : Int
  resetSeconds : Nat
  retryAfter : Nat
deriving DecidableEq, Repr

/-- redisRateLimit of rate-limiter.ts. The ZSET for the key is its list of member
scores (millisecond timestamps as integers). The MULTI block removes scores in
the inclusive range from 0 to now minus window, adds a fresh uniquely-named
member at now, counts, and sets the key expiry; the reported count therefore
includes the current request. -/
def rlStep (entries : List Int) (now : Int) (window : Nat) (maxRequests : Nat) :
    CheckResult × List Int :=
  let kept := entries.filter (fun t => !decide (0 ≤ t ∧ t ≤ now - (window : Int)))
  let newEntries := kept ++ [now]
  let count := newEntries.length
  let exceeded := decide (count > maxRequests)
  let remaining : Int := max 0 ((maxRequests : Int) - (count : Int))
  let resetSeconds := (window + 999) / 1000
  let retryAfter := if exceeded then resetSeconds else 0
  ({ exceeded := exceeded, count := count, remaining := remaining,
     resetSeconds := resetSeconds, retryAfter := retryAfter }, newEntries)

/-- Consecutive admission checks against the same key, threading the ZSET state. -/
def rlRun (entries : List Int) (times : List Int) (window maxRequests : Nat) :
    List CheckResult :=
  match times with
  | [] => []
  | t :: ts =>
    let s := rlStep entries t window maxRequests
    s.1 :: rlRun s.2 ts window maxRequests

/-- What the middleware does with a request: pass it on to the handler or answer
429 Too Many Requests. -/
inductive MwOutcome
  | next
  | tooMany
deriving DecidableEq, Repr

/-- checkRateLimit of rate-limiter.ts: only the Redis path; an unreachable store
or failed pipeline surfaces as an error to the middleware. -/
def checkRateLimitE (storeOutcome : Except Unit (List Int)) (now : Int)
    (window maxRequests : Nat) : Except Unit CheckResult :=
  match storeOutcome with
  | Except.error e => Except.error e
  | Except.ok entries => Except.ok (rlStep entries now window maxRequests).1

/-- The middleware of rate-limiter.ts: reject when the check reports exceeded;
any error from the check is caught and the request is passed on (fail-open). -/
def middlewareRun (check : Except Unit CheckResult) : MwOutcome :=
  match check with
  | Except.error _ => MwOutcome.next
  | Except.ok r => if r.exceeded then MwOutcome.tooMany else MwOutcome.next

/-- A key segment; strings are modelled as lists of characters. -/
abbrev Seg : Type := List Char

/-- Array.join with a one-character separator. -/
def joinWith (sep : Char) : List Seg → Seg
  | [] => []
  | [s] => s
  | s :: rest => s ++ sep :: joinWith sep rest

/-- The filter with the Boolean coercion in CacheKeyGenerator.k: drops absent
components and empty strings. -/
def jsFilterBoolean (parts : List (Option Seg)) : List Seg :=
  parts.filterMap (fun p => match p with
    | none => none
    | some [] => none
    | some s => some s)

def livestockSeg : Seg := "livestock".toList

/-- CacheKeyGenerator.k of redis.ts: prefix plus the filtered components, joined
with the colon separator. -/
def keyK (parts : List (Option Seg)) : Seg :=
  joinWith ':' (livestockSeg :: jsFilterBoolean parts)

/-- CacheKeyGenerator.sensorReading. -/
def sensorReadingKey (animalId : Seg) (latest : Bool) : Seg :=
  keyK [some "sensor".toList, some animalId,
        if latest then some "latest".toList else none]

/-- Decimal rendering of a number interpolated into a template string. -/
def natSeg (n : Nat) : Seg := (Nat.repr n).toList

/-- CacheKeyGenerator.batchSensorReadings: ids are sorted (JS sort, lexicographic
by character code) and joined with commas before entering the key. -/
def batchSensorReadingsKey (animalIds : List Seg) (hours limitPerAnimal : Nat) : Seg :=
  let sortedIds := joinWith ',' (List.insertionSort (· ≤ ·) animalIds)
  keyK [some "sensor".toList, some "batch".toList, some sortedIds,
        some (natSeg hours ++ "h".toList),
        some ("l".toList ++ natSeg limitPerAnimal)]

/-- JS Math.round: round half toward positive infinity. -/
def jsRound (q : ℚ) : ℤ := ⌊q + 1/2⌋

/-- The hit percentage hits over totalRequests times 100. -/
def hitRatePercent (s : CacheStats) : ℚ :=
  (s.hits : ℚ) / (s.totalRequests : ℚ) * 100

/-- The hitRate field computed by getCacheStats of cache-service.ts: the
percentage, rounded to two decimals. -/
def getCacheStatsHitRate (s : CacheStats) : ℚ :=
  let hitRate : ℚ := if 0 < s.totalRequests then (s.hits : ℚ) / (s.totalRequests : ℚ) * 100 else 0
  (jsRound (hitRate * 100) : ℚ) / 100

/-- Outcome of invalidatePattern: whether an error propagated to the caller, the
resulting store, and whether a del command was issued. -/
structure InvalidateOutcome where
  result : Except Unit Unit
  store : CacheStore
  delIssued : Bool

/-- invalidatePattern of cache-service.ts: enumerate matching keys, delete them
when there are any; all store errors are caught and only logged. keysOk and
delOk say whether the two store operations succeed. -/
def invalidatePattern (store : CacheStore) (pat : String → Bool)
    (keysOk delOk : Bool) : InvalidateOutcome :=
  if keysOk then
    if ((store.filter (fun kv => pat kv.1)).map (fun kv => kv.1)).length > 0 then
      if delOk then
        { result := Except.ok (), store := store.filter (fun kv => !pat kv.1),
          delIssued := true }
      else
        { result := Except.ok (), store := store, delIssued := true }
    else
      { result := Except.ok (), store := store, delIssued := false }
  else
    { result := Except.ok (), store := store, delIssued := false }

theorem recordFailureS_failures (b : BreakerState) (now : Nat) :
    (recordFailureS b now).failures = b.failures + 1 := by
  simp only [recordFailureS]
  split <;> rfl

theorem recordFailureS_lastFailure (b : BreakerState) (now : Nat) :
    (recordFailureS b now).lastFailure = now := by
  simp only [recordFailureS]
  split <;> rfl

theorem recordFailureS_isOpen (b : BreakerState) (now : Nat) :
    (recordFailureS b now).isOpen = (b.isOpen || decide (maxFailures ≤ b.failures + 1)) := by
  simp only [recordFailureS, ge_iff_le]
  by_cases h : maxFailures ≤ b.failures + 1
  · simp [h]
  · simp [h]

theorem applyFailures_cons (b : BreakerState) (t : Nat) (ts : List Nat) :
    applyFailures b (t :: ts) = applyFailures (recordFailureS b t) ts := rfl

theorem applyFailures_failures (ts : List Nat) (b : BreakerState) :
    (applyFailures b ts).failures = b.failures + ts.length := by
  induction ts generalizing b with
  | nil => rfl
  | cons t ts ih =>
    rw [applyFailures_cons, ih, recordFailureS_failures]
    simp only [List.length_cons]
    omega

theorem applyFailures_isOpen_true (ts : List Nat) (b : BreakerState)
    (h : b.isOpen = true) : (applyFailures b ts).isOpen = true := by
  induction ts generalizing b with
  | nil => exact h
  | cons t ts ih =>
    rw [applyFailures_cons]
    exact ih _ (by rw [recordFailureS_isOpen, h, Bool.true_or])

theorem applyFailures_isOpen (ts : List Nat) (b : BreakerState)
    (h : b.isOpen = false) :
    (applyFailures b ts).isOpen =
      (decide (maxFailures ≤ b.failures + ts.length) && !ts.isEmpty) := by
  induction ts generalizing b with
  | nil => simp [applyFailures, h]
  | cons t ts ih =>
    rw [applyFailures_cons]
    by_cases hop : maxFailures ≤ b.failures + 1
    · rw [applyFailures_isOpen_true ts _
        (by rw [recordFailureS_isOpen, h, Bool.false_or, decide_eq_true hop])]
      simp only [List.length_cons, List.isEmpty_cons, Bool.not_false, Bool.and_true]
      have hle : maxFailures ≤ b.failures + (ts.length + 1) := by omega
      simp [hle]
    · rw [ih _ (by rw [recordFailureS_isOpen, h, Bool.false_or, decide_eq_false hop])]
      rw [recordFailureS_failures]
      rcases ts with _ | ⟨t', ts'⟩
      · simp only [List.isEmpty_nil, Bool.not_true, Bool.and_false, List.length_cons,
          List.length_nil, List.isEmpty_cons, Bool.not_false, Bool.and_true]
        symm
        rw [decide_eq_false_iff_not]
        intro hcon
        exact hop (by omega)
      · simp only [List.isEmpty_cons, Bool.not_false, Bool.and_true, List.length_cons]
        rw [decide_eq_decide]
        omega

/-- Claim C3: after exactly maxFailures (5) consecutive recorded failures the
breaker is open (and, with fewer, still closed); while open and within
resetTimeout of the last failure every check reports open and leaves the state
unchanged; once more than resetTimeout has elapsed since the last failure, the
next check reports closed with the failure count reset to 0. -/
theorem breaker_threshold_and_reset :
    (∀ (l0 : Nat) (ts : List Nat),
        ts.length = maxFailures →
        (applyFailures ⟨0, l0, false⟩ ts).isOpen = true) ∧
    (∀ (l0 : Nat) (ts : List Nat),
        ts.length < maxFailures →
        (applyFailures ⟨0, l0, false⟩ ts).isOpen = false) ∧
    (∀ (b : BreakerState) (now : Nat),
        b.isOpen = true → now - b.lastFailure ≤ resetTimeout →
        isCircuitOpenS b now = (true, b)) ∧
    (∀ (b : BreakerState) (now : Nat),
        b.isOpen = true → resetTimeout < now - b.lastFailure →
        isCircuitOpenS b now = (false, { b with isOpen := false, failures := 0 })) := by
  refine ⟨?_, ?_, ?_, ?_⟩
  · intro l0 ts hlen
    rw [applyFailures_isOpen ts _ rfl]
    rcases ts with _ | ⟨t, ts'⟩
    · simp [maxFailures] at hlen
    · simp only [List.isEmpty_cons, Bool.not_false, Bool.and_true]
      rw [hlen]
      simp
  · intro l0 ts hlen
    rw [applyFailures_isOpen ts _ rfl]
    have hd : decide (maxFailures ≤ (⟨0, l0, false⟩ : BreakerState).failures + ts.length)
        = false := decide_eq_false (by simpa using by omega)
    rw [hd, Bool.false_and]
  · intro b now hop htime
    simp only [isCircuitOpenS, hop, Bool.not_true, Bool.false_eq_true, if_false]
    rw [if_neg (by omega)]
  · intro b now hop htime
    simp only [isCircuitOpenS, hop, Bool.not_true, Bool.false_eq_true, if_false]
    rw [if_pos (by omega)]

/-- Witness for C3 at concrete inputs. -/
theorem breaker_threshold_and_reset_witness :
    (applyFailures ⟨0, 0, false⟩ [1, 2, 3, 4, 5]).isOpen = true ∧
    (applyFailures ⟨0, 0, false⟩ [1, 2]).isOpen = false ∧
    isCircuitOpenS ⟨5, 100, true⟩ 200 = (true, ⟨5, 100, true⟩) ∧
    isCircuitOpenS ⟨5, 100, true⟩ 40000 = (false, ⟨0, 100, false⟩) :=
  ⟨breaker_threshold_and_reset.1 0 [1, 2, 3, 4, 5] (by decide),
   breaker_threshold_and_reset.2.1 0 [1, 2] (by decide),
   breaker_threshold_and_reset.2.2.1 ⟨5, 100, true⟩ 200 rfl (by decide),
   breaker_threshold_and_reset.2.2.2 ⟨5, 100, true⟩ 40000 rfl (by decide)⟩

theorem resetCircuitBreakerS_isOpen (b : BreakerState) :
    (resetCircuitBreakerS b).isOpen = b.isOpen := by
  simp only [resetCircuitBreakerS]
  split <;> rfl

theorem resetCircuitBreakerS_failures (b : BreakerState) :
    (resetCircuitBreakerS b).failures = 0 := by
  simp only [resetCircuitBreakerS]
  split
  · rfl
  · next h => omega

theorem resetCircuitBreakerS_lastFailure (b : BreakerState) :
    (resetCircuitBreakerS b).lastFailure = b.lastFailure := by
  simp only [resetCircuitBreakerS]
  split <;> rfl

theorem lookupStore_storeSet (store : CacheStore) (key : String) (v : List Nat) :
    lookupStore (storeSet store key v) key = some v := by
  unfold lookupStore storeSet
  rw [List.find?_cons_of_pos _ (by simp)]
  rfl

/-- Closed breaker, read succeeds, nonempty entry present: the hit path. -/
theorem cacheGetOrSet_hit {ε α : Type} (st : CacheState) (key : String)
    (fetcher : Nat → Except ε α) (ttl : Nat) (compressFlag : Bool)
    (stringify : α → List Nat) (parseFn : List Nat → α) (now : Nat) (setOk : Bool)
    (v : List Nat) (hclosed : st.breaker.isOpen = false)
    (hlook : lookupStore st.store key = some v) (hv : v ≠ []) :
    cacheGetOrSet st key fetcher ttl compressFlag stringify parseFn now true setOk =
      ⟨Except.ok (parseFn (if compressFlag then b64Decode v else v)),
       ⟨⟨st.stats.hits + 1, st.stats.misses, st.stats.errors, st.stats.totalRequests + 1⟩,
        st.breaker, st.store⟩,
       0, 1, 0⟩ := by
  obtain ⟨c0, cs0, rfl⟩ := List.exists_cons_of_ne_nil hv
  simp [cacheGetOrSet, isCircuitOpenS, hclosed, hlook]

/-- Closed breaker, read succeeds but finds nothing, fetch and write succeed:
the miss path. -/
theorem cacheGetOrSet_miss_ok {ε α : Type} (st : CacheState) (key : String)
    (fetcher : Nat → Except ε α) (ttl : Nat) (compressFlag : Bool)
    (stringify : α → List Nat) (parseFn : List Nat → α) (now : Nat)
    (v : α) (hclosed : st.breaker.isOpen = false)
    (hlook : lookupStore st.store key = none)
    (hf : fetcher 0 = Except.ok v) :
    cacheGetOrSet st key fetcher ttl compressFlag stringify parseFn now true true =
      ⟨Except.ok v,
       ⟨⟨st.stats.hits, st.stats.misses + 1, st.stats.errors, st.stats.totalRequests + 1⟩,
        resetCircuitBreakerS st.breaker,
        storeSet st.store key (if compressFlag then b64Encode (stringify v) else stringify v)⟩,
       1, 1, 1⟩ := by
  simp [cacheGetOrSet, isCircuitOpenS, hclosed, hlook, cacheMissPath, hf]

/-- Closed breaker, miss, fetch succeeds but the fire-and-forget write fails:
the store is unchanged and the deferred rejection handler records a failure
after the synchronous reset. -/
theorem cacheGetOrSet_miss_setfail {ε α : Type} (st : CacheState) (key : String)
    (fetcher : Nat → Except ε α) (ttl : Nat) (compressFlag : Bool)
    (stringify : α → List Nat) (parseFn : List Nat → α) (now : Nat)
    (v : α) (hclosed : st.breaker.isOpen = false)
    (hlook : lookupStore st.store key = none)
    (hf : fetcher 0 = Except.ok v) :
    cacheGetOrSet st key fetcher ttl compressFlag stringify parseFn now true false =
      ⟨Except.ok v,
       ⟨⟨st.stats.hits, st.stats.misses + 1, st.stats.errors, st.stats.totalRequests + 1⟩,
        recordFailureS (resetCircuitBreakerS st.breaker) now,
        st.store⟩,
       1, 1, 1⟩ := by
  simp [cacheGetOrSet, isCircuitOpenS, hclosed, hlook, cacheMissPath, hf]

/-- Closed breaker, miss, and the fetcher itself fails: the surrounding catch
block counts an error, records a breaker failure and invokes the fetcher a
second time; that second outcome is the call's outcome. -/
theorem cacheGetOrSet_miss_fetchfail {ε α : Type} (st : CacheState) (key : String)
    (fetcher : Nat → Except ε α) (ttl : Nat) (compressFlag : Bool)
    (stringify : α → List Nat) (parseFn : List Nat → α) (now : Nat) (setOk : Bool)
    (e : ε) (hclosed : st.breaker.isOpen = false)
    (hlook : lookupStore st.store key = none)
    (hf : fetcher 0 = Except.error e) :
    cacheGetOrSet st key fetcher ttl compressFlag stringify parseFn now true setOk =
      ⟨fetcher 1,
       ⟨⟨st.stats.hits, st.stats.misses + 1, st.stats.errors + 1, st.stats.totalRequests + 1⟩,
        recordFailureS st.breaker now,
        st.store⟩,
       2, 1, 0⟩ := by
  simp [cacheGetOrSet, isCircuitOpenS, hclosed, hlook, cacheMissPath, hf, catchPath]

/-- Closed breaker and a failing store read: the catch block counts an error,
records a breaker failure, and falls back to a single fetcher invocation. -/
theorem cacheGetOrSet_getfail {ε α : Type} (st : CacheState) (key : String)
    (fetcher : Nat → Except ε α) (ttl : Nat) (compressFlag : Bool)
    (stringify : α → List Nat) (parseFn : List Nat → α) (now : Nat) (setOk : Bool)
    (hclosed : st.breaker.isOpen = false) :
    cacheGetOrSet st key fetcher ttl compressFlag stringify parseFn now false setOk =
      ⟨fetcher 0,
       ⟨⟨st.stats.hits, st.stats.misses, st.stats.errors + 1, st.stats.totalRequests + 1⟩,
        recordFailureS st.breaker now,
        st.store⟩,
       1, 1, 0⟩ := by
  simp [cacheGetOrSet, isCircuitOpenS, hclosed, catchPath]

/-- Open breaker within the cooldown and a successful fetch: the store is never
touched and only the total-request counter changes. -/
theorem cacheGetOrSet_open {ε α : Type} (st : CacheState) (key : String)
    (fetcher : Nat → Except ε α) (ttl : Nat) (compressFlag : Bool)
    (stringify : α → List Nat) (parseFn : List Nat → α) (now : Nat)
    (getOk setOk : Bool) (v : α)
    (hopen : st.breaker.isOpen = true)
    (htime : now - st.breaker.lastFailure ≤ resetTimeout)
    (hf : fetcher 0 = Except.ok v) :
    cacheGetOrSet st key fetcher ttl compressFlag stringify parseFn now getOk setOk =
      ⟨Except.ok v,
       ⟨⟨st.stats.hits, st.stats.misses, st.stats.errors, st.stats.totalRequests + 1⟩,
        st.breaker, st.store⟩,
       1, 0, 0⟩ := by
  have hcheck : isCircuitOpenS st.breaker now = (true, st.breaker) := by
    simp only [isCircuitOpenS, hopen, Bool.not_true, Bool.false_eq_true, if_false]
    rw [if_neg (by omega)]
  simp [cacheGetOrSet, hcheck, hf]

/-- Claim C1: with a closed breaker, a cold key and an error-free store, a
getOrCompute call with fetcher A immediately followed by one with a fresh
fetcher B on the same key returns A's value from both calls, never invokes B,
increments the hit counter by exactly one, and the value returned on the hit is
structurally identical to the value stored (serialization round-trips and
compression is lossless). -/
theorem cache_hit_after_fill {ε α : Type} (st : CacheState) (key : String)
    (a : α) (fB : Nat → Except ε α) (ttl : Nat) (compressFlag : Bool)
    (stringify : α → List Nat) (parseFn : List Nat → α) (t1 t2 : Nat)
    (r1 r2 : CallOutcome ε α)
    (hkey : key ≠ "") (httl : 0 < ttl)
    (hclosed : st.breaker.isOpen = false)
    (hcold : lookupStore st.store key = none)
    (hne : stringify a ≠ [])
    (hbytes : ∀ x ∈ stringify a, x < 256)
    (hparse : parseFn (stringify a) = a)
    (hr1 : r1 = cacheGetOrSet st key (fun _ => Except.ok a) ttl compressFlag
      stringify parseFn t1 true true)
    (hr2 : r2 = cacheGetOrSet r1.state key fB ttl compressFlag
      stringify parseFn t2 true true) :
    r1.result = Except.ok a ∧
    r2.result = Except.ok a ∧
    r2.fetcherCalls = 0 ∧
    r2.state.stats.hits = r1.state.stats.hits + 1 := by
  have e1 := cacheGetOrSet_miss_ok (ε := ε) st key (fun _ => Except.ok a) ttl compressFlag
    stringify parseFn t1 a hclosed hcold rfl
  have hts_ne : (if compressFlag then b64Encode (stringify a) else stringify a) ≠ [] := by
    cases compressFlag
    · simpa using hne
    · simpa using b64Encode_ne_nil _ hne
  have hdata : parseFn (if compressFlag
      then b64Decode (if compressFlag then b64Encode (stringify a) else stringify a)
      else if compressFlag then b64Encode (stringify a) else stringify a) = a := by
    cases compressFlag
    · simpa using hparse
    · simpa [b64_roundtrip _ hbytes] using hparse
  rw [e1] at hr1
  subst hr1
  have hclosed2 : (⟨⟨st.stats.hits, st.stats.misses + 1, st.stats.errors,
      st.stats.totalRequests + 1⟩, resetCircuitBreakerS st.breaker,
      storeSet st.store key (if compressFlag then b64Encode (stringify a)
        else stringify a)⟩ : CacheState).breaker.isOpen = false := by
    simpa [resetCircuitBreakerS_isOpen] using hclosed
  have e2 := cacheGetOrSet_hit _ key fB ttl compressFlag stringify parseFn t2 true _
    hclosed2 (lookupStore_storeSet _ _ _) hts_ne
  rw [e2] at hr2
  subst hr2
  exact ⟨rfl, congrArg Except.ok hdata, rfl, rfl⟩

/-- Witness for C1 at a concrete instantiation. -/
theorem cache_hit_after_fill_witness :
    ("k" : String) ≠ "" ∧ (0 : Nat) < 60 ∧ ([7] : List Nat) ≠ [] ∧
    (∀ x ∈ ([7] : List Nat), x < 256) ∧
    (([7] : List Nat).headD 0 = 7) ∧
    ((cacheGetOrSet (ε := Unit) ⟨⟨0, 0, 0, 0⟩, ⟨0, 0, false⟩, []⟩ "k"
        (fun _ => Except.ok (7 : Nat)) 60 true (fun n => [n]) (fun l => l.headD 0)
        0 true true).result = Except.ok 7 ∧
     (cacheGetOrSet (ε := Unit)
        (cacheGetOrSet (ε := Unit) ⟨⟨0, 0, 0, 0⟩, ⟨0, 0, false⟩, []⟩ "k"
          (fun _ => Except.ok (7 : Nat)) 60 true (fun n => [n]) (fun l => l.headD 0)
          0 true true).state "k"
        (fun _ => Except.ok (99 : Nat)) 60 true (fun n => [n]) (fun l => l.headD 0)
        0 true true).result = Except.ok 7 ∧
     (cacheGetOrSet (ε := Unit)
        (cacheGetOrSet (ε := Unit) ⟨⟨0, 0, 0, 0⟩, ⟨0, 0, false⟩, []⟩ "k"
          (fun _ => Except.ok (7 : Nat)) 60 true (fun n => [n]) (fun l => l.headD 0)
          0 true true).state "k"
        (fun _ => Except.ok (99 : Nat)) 60 true (fun n => [n]) (fun l => l.headD 0)
        0 true true).fetcherCalls = 0 ∧
     (cacheGetOrSet (ε := Unit)
        (cacheGetOrSet (ε := Unit) ⟨⟨0, 0, 0, 0⟩, ⟨0, 0, false⟩, []⟩ "k"
          (fun _ => Except.ok (7 : Nat)) 60 true (fun n => [n]) (fun l => l.headD 0)
          0 true true).state "k"
        (fun _ => Except.ok (99 : Nat)) 60 true (fun n => [n]) (fun l => l.headD 0)
        0 true true).state.stats.hits =
       (cacheGetOrSet (ε := Unit) ⟨⟨0, 0, 0, 0⟩, ⟨0, 0, false⟩, []⟩ "k"
          (fun _ => Except.ok (7 : Nat)) 60 true (fun n => [n]) (fun l => l.headD 0)
          0 true true).state.stats.hits + 1) :=
  ⟨by decide, by decide, by decide, by decide, rfl,
   cache_hit_after_fill ⟨⟨0, 0, 0, 0⟩, ⟨0, 0, false⟩, []⟩ "k" 7
     (fun _ => Except.ok 99) 60 true (fun n => [n]) (fun l => l.headD 0) 0 0 _ _
     (by decide) (by decide) rfl rfl (by decide) (by decide) rfl rfl rfl⟩

/-- Counterexample to claim C5: with a perfectly healthy store (read and write
both succeed) and a fetcher that fails on its first invocation and succeeds on
its second, a single getOrCompute call increments the error counter, records a
breaker failure, invokes the fetcher twice, and masks the fetcher's failure by
returning the second invocation's value; this contradicts that the error
counter and breaker failures are recorded only for cache-store exceptions,
never for fetcher exceptions, and that each call makes exactly one fetcher
invocation whose failure is propagated. -/
theorem cache_error_accounting_counterexample :
    (cacheGetOrSet (ε := Unit) ⟨⟨0, 0, 0, 0⟩, ⟨0, 0, false⟩, []⟩ "k"
      (fun n => if n = 0 then Except.error () else Except.ok (7 : Nat)) 60 false
      (fun n => [n]) (fun l => l.headD 0) 0 true true).state.stats.errors = 1 ∧
    (cacheGetOrSet (ε := Unit) ⟨⟨0, 0, 0, 0⟩, ⟨0, 0, false⟩, []⟩ "k"
      (fun n => if n = 0 then Except.error () else Except.ok (7 : Nat)) 60 false
      (fun n => [n]) (fun l => l.headD 0) 0 true true).state.breaker.failures = 1 ∧
    (cacheGetOrSet (ε := Unit) ⟨⟨0, 0, 0, 0⟩, ⟨0, 0, false⟩, []⟩ "k"
      (fun n => if n = 0 then Except.error () else Except.ok (7 : Nat)) 60 false
      (fun n => [n]) (fun l => l.headD 0) 0 true true).fetcherCalls = 2 ∧
    (cacheGetOrSet (ε := Unit) ⟨⟨0, 0, 0, 0⟩, ⟨0, 0, false⟩, []⟩ "k"
      (fun n => if n = 0 then Except.error () else Except.ok (7 : Nat)) 60 false
      (fun n => [n]) (fun l => l.headD 0) 0 true true).result = Except.ok 7 :=
  ⟨rfl, rfl, rfl, rfl⟩

/-- Claim C5 amended: a store-read exception increments the error counter,
records a breaker failure, and the call falls back to a single fetcher
invocation whose value is returned. A store-write exception does not increment
the error counter; it records a breaker failure only after the successful miss
path has already reset the failure counter, leaving it at 1. A fetcher
exception on the miss path is caught by the same handler as store errors: it
increments the error counter, records a breaker failure, and triggers a second
fetcher invocation whose outcome, value or error, becomes the call's outcome;
so a fetcher failure is propagated only when the retry also fails. -/
theorem cache_error_accounting_amended :
    (∀ (ε α : Type) (st : CacheState) (key : String) (fetcher : Nat → Except ε α)
        (ttl : Nat) (c : Bool) (sg : α → List Nat) (pf : List Nat → α)
        (now : Nat) (setOk : Bool) (v : α),
        st.breaker.isOpen = false → fetcher 0 = Except.ok v →
        (cacheGetOrSet st key fetcher ttl c sg pf now false setOk).result = Except.ok v ∧
        (cacheGetOrSet st key fetcher ttl c sg pf now false setOk).state.stats.errors
          = st.stats.errors + 1 ∧
        (cacheGetOrSet st key fetcher ttl c sg pf now false setOk).state.breaker
          = recordFailureS st.breaker now ∧
        (cacheGetOrSet st key fetcher ttl c sg pf now false setOk).fetcherCalls = 1) ∧
    (∀ (ε α : Type) (st : CacheState) (key : String) (fetcher : Nat → Except ε α)
        (ttl : Nat) (c : Bool) (sg : α → List Nat) (pf : List Nat → α)
        (now : Nat) (setOk : Bool) (e : ε),
        st.breaker.isOpen = false → lookupStore st.store key = none →
        fetcher 0 = Except.error e →
        (cacheGetOrSet st key fetcher ttl c sg pf now true setOk).result = fetcher 1 ∧
        (cacheGetOrSet st key fetcher ttl c sg pf now true setOk).state.stats.errors
          = st.stats.errors + 1 ∧
        (cacheGetOrSet st key fetcher ttl c sg pf now true setOk).state.breaker
          = recordFailureS st.breaker now ∧
        (cacheGetOrSet st key fetcher ttl c sg pf now true setOk).fetcherCalls = 2) ∧
    (∀ (ε α : Type) (st : CacheState) (key : String) (fetcher : Nat → Except ε α)
        (ttl : Nat) (c : Bool) (sg : α → List Nat) (pf : List Nat → α)
        (now : Nat) (v : α),
        st.breaker.isOpen = false → lookupStore st.store key = none →
        fetcher 0 = Except.ok v →
        (cacheGetOrSet st key fetcher ttl c sg pf now true false).result = Except.ok v ∧
        (cacheGetOrSet st key fetcher ttl c sg pf now true false).state.stats.errors
          = st.stats.errors ∧
        (cacheGetOrSet st key fetcher ttl c sg pf now true false).state.breaker.failures = 1 ∧
        (cacheGetOrSet st key fetcher ttl c sg pf now true false).state.breaker.isOpen = false ∧
        (cacheGetOrSet st key fetcher ttl c sg pf now true false).state.store = st.store) := by
  refine ⟨?_, ?_, ?_⟩
  · intro ε α st key fetcher ttl c sg pf now setOk v hclosed hf
    rw [cacheGetOrSet_getfail st key fetcher ttl c sg pf now setOk hclosed]
    exact ⟨hf, rfl, rfl, rfl⟩
  · intro ε α st key fetcher ttl c sg pf now setOk e hclosed hlook hf
    rw [cacheGetOrSet_miss_fetchfail st key fetcher ttl c sg pf now setOk e hclosed hlook hf]
    exact ⟨rfl, rfl, rfl, rfl⟩
  · intro ε α st key fetcher ttl c sg pf now v hclosed hlook hf
    rw [cacheGetOrSet_miss_setfail st key fetcher ttl c sg pf now v hclosed hlook hf]
    refine ⟨rfl, rfl, ?_, ?_, rfl⟩
    · rw [recordFailureS_failures, resetCircuitBreakerS_failures]
    · rw [recordFailureS_isOpen, resetCircuitBreakerS_isOpen, hclosed,
        resetCircuitBreakerS_failures]
      simp [maxFailures]

/-- Witness for the amended C5 at concrete inputs. -/
theorem cache_error_accounting_amended_witness :
    ((⟨⟨0, 0, 0, 0⟩, ⟨0, 0, false⟩, []⟩ : CacheState).breaker.isOpen = false) ∧
    ((cacheGetOrSet (ε := Unit) ⟨⟨0, 0, 0, 0⟩, ⟨0, 0, false⟩, []⟩ "k"
        (fun _ => Except.ok (5 : Nat)) 60 false (fun n => [n]) (fun l => l.headD 0)
        0 false true).result = Except.ok 5 ∧
     (cacheGetOrSet (ε := Unit) ⟨⟨0, 0, 0, 0⟩, ⟨0, 0, false⟩, []⟩ "k"
        (fun _ => Except.ok (5 : Nat)) 60 false (fun n => [n]) (fun l => l.headD 0)
        0 false true).state.stats.errors = 0 + 1 ∧
     (cacheGetOrSet (ε := Unit) ⟨⟨0, 0, 0, 0⟩, ⟨0, 0, false⟩, []⟩ "k"
        (fun _ => Except.ok (5 : Nat)) 60 false (fun n => [n]) (fun l => l.headD 0)
        0 false true).state.breaker = recordFailureS ⟨0, 0, false⟩ 0 ∧
     (cacheGetOrSet (ε := Unit) ⟨⟨0, 0, 0, 0⟩, ⟨0, 0, false⟩, []⟩ "k"
        (fun _ => Except.ok (5 : Nat)) 60 false (fun n => [n]) (fun l => l.headD 0)
        0 false true).fetcherCalls = 1) ∧
    ((cacheGetOrSet (ε := Unit) ⟨⟨0, 0, 0, 0⟩, ⟨0, 0, false⟩, []⟩ "k"
        (fun _ => Except.ok (5 : Nat)) 60 false (fun n => [n]) (fun l => l.headD 0)
        0 true false).result = Except.ok 5 ∧
     (cacheGetOrSet (ε := Unit) ⟨⟨0, 0, 0, 0⟩, ⟨0, 0, false⟩, []⟩ "k"
        (fun _ => Except.ok (5 : Nat)) 60 false (fun n => [n]) (fun l => l.headD 0)
        0 true false).state.stats.errors = 0 ∧
     (cacheGetOrSet (ε := Unit) ⟨⟨0, 0, 0, 0⟩, ⟨0, 0, false⟩, []⟩ "k"
        (fun _ => Except.ok (5 : Nat)) 60 false (fun n => [n]) (fun l => l.headD 0)
        0 true false).state.breaker.failures = 1 ∧
     (cacheGetOrSet (ε := Unit) ⟨⟨0, 0, 0, 0⟩, ⟨0, 0, false⟩, []⟩ "k"
        (fun _ => Except.ok (5 : Nat)) 60 false (fun n => [n]) (fun l => l.headD 0)
        0 true false).state.breaker.isOpen = false ∧
     (cacheGetOrSet (ε := Unit) ⟨⟨0, 0, 0, 0⟩, ⟨0, 0, false⟩, []⟩ "k"
        (fun _ => Except.ok (5 : Nat)) 60 false (fun n => [n]) (fun l => l.headD 0)
        0 true false).state.store = []) :=
  ⟨rfl,
   cache_error_accounting_amended.1 Unit Nat ⟨⟨0, 0, 0, 0⟩, ⟨0, 0, false⟩, []⟩ "k"
     (fun _ => Except.ok 5) 60 false (fun n => [n]) (fun l => l.headD 0) 0 true 5 rfl rfl,
   cache_error_accounting_amended.2.2 Unit Nat ⟨⟨0, 0, 0, 0⟩, ⟨0, 0, false⟩, []⟩ "k"
     (fun _ => Except.ok 5) 60 false (fun n => [n]) (fun l => l.headD 0) 0 5 rfl rfl rfl⟩

/-- Counterexample to claim C7: a call that completes successfully via a cache
hit while the breaker is closed with failure counter 3 leaves the counter at 3,
not 0; only the miss path resets it. -/
theorem breaker_reset_on_success_counterexample :
    (cacheGetOrSet (ε := Unit) ⟨⟨0, 0, 0, 0⟩, ⟨3, 0, false⟩, [("k", [48])]⟩ "k"
      (fun _ => Except.ok (0 : Nat)) 60 false (fun _ => [48]) (fun _ => 0)
      0 true true).result = Except.ok 0 ∧
    (cacheGetOrSet (ε := Unit) ⟨⟨0, 0, 0, 0⟩, ⟨3, 0, false⟩, [("k", [48])]⟩ "k"
      (fun _ => Except.ok (0 : Nat)) 60 false (fun _ => [48]) (fun _ => 0)
      0 true true).state.breaker.failures = 3 ∧
    (3 : Nat) ≠ 0 :=
  ⟨rfl, rfl, by decide⟩

/-- Claim C7 amended: a hit in the Closed state leaves the breaker completely
unchanged (in particular a nonzero failure counter stays nonzero); only a miss
followed by a successful fetch and write resets the failure counter to 0 while
staying closed; and a successful operation while the breaker is Open within the
cooldown does not change the breaker state. -/
theorem breaker_reset_on_success_amended :
    (∀ (ε α : Type) (st : CacheState) (key : String) (fetcher : Nat → Except ε α)
        (ttl : Nat) (c : Bool) (sg : α → List Nat) (pf : List Nat → α)
        (now : Nat) (setOk : Bool) (v : List Nat),
        st.breaker.isOpen = false → lookupStore st.store key = some v → v ≠ [] →
        (cacheGetOrSet st key fetcher ttl c sg pf now true setOk).state.breaker
          = st.breaker) ∧
    (∀ (ε α : Type) (st : CacheState) (key : String) (fetcher : Nat → Except ε α)
        (ttl : Nat) (c : Bool) (sg : α → List Nat) (pf : List Nat → α)
        (now : Nat) (v : α),
        st.breaker.isOpen = false → lookupStore st.store key = none →
        fetcher 0 = Except.ok v →
        (cacheGetOrSet st key fetcher ttl c sg pf now true true).state.breaker.failures = 0 ∧
        (cacheGetOrSet st key fetcher ttl c sg pf now true true).state.breaker.isOpen = false) ∧
    (∀ (ε α : Type) (st : CacheState) (key : String) (fetcher : Nat → Except ε α)
        (ttl : Nat) (c : Bool) (sg : α → List Nat) (pf : List Nat → α)
        (now : Nat) (getOk setOk : Bool) (v : α),
        st.breaker.isOpen = true → now - st.breaker.lastFailure ≤ resetTimeout →
        fetcher 0 = Except.ok v →
        (cacheGetOrSet st key fetcher ttl c sg pf now getOk setOk).state.breaker
          = st.breaker) := by
  refine ⟨?_, ?_, ?_⟩
  · intro ε α st key fetcher ttl c sg pf now setOk v hclosed hlook hv
    rw [cacheGetOrSet_hit st key fetcher ttl c sg pf now setOk v hclosed hlook hv]
  · intro ε α st key fetcher ttl c sg pf now v hclosed hlook hf
    rw [cacheGetOrSet_miss_ok st key fetcher ttl c sg pf now v hclosed hlook hf]
    exact ⟨resetCircuitBreakerS_failures st.breaker,
      (resetCircuitBreakerS_isOpen st.breaker).trans hclosed⟩
  · intro ε α st key fetcher ttl c sg pf now getOk setOk v hopen htime hf
    rw [cacheGetOrSet_open st key fetcher ttl c sg pf now getOk setOk v hopen htime hf]

/-- Witness for the amended C7 at concrete inputs. -/
theorem breaker_reset_on_success_amended_witness :
    ((cacheGetOrSet (ε := Unit) ⟨⟨0, 0, 0, 0⟩, ⟨3, 0, false⟩, [("k", [48])]⟩ "k"
        (fun _ => Except.ok (0 : Nat)) 60 false (fun _ => [48]) (fun _ => 0)
        0 true true).state.breaker = ⟨3, 0, false⟩) ∧
    ((cacheGetOrSet (ε := Unit) ⟨⟨0, 0, 0, 0⟩, ⟨3, 0, false⟩, []⟩ "k"
        (fun _ => Except.ok (0 : Nat)) 60 false (fun _ => [48]) (fun _ => 0)
        0 true true).state.breaker.failures = 0 ∧
     (cacheGetOrSet (ε := Unit) ⟨⟨0, 0, 0, 0⟩, ⟨3, 0, false⟩, []⟩ "k"
        (fun _ => Except.ok (0 : Nat)) 60 false (fun _ => [48]) (fun _ => 0)
        0 true true).state.breaker.isOpen = false) ∧
    ((cacheGetOrSet (ε := Unit) ⟨⟨0, 0, 0, 0⟩, ⟨5, 100, true⟩, [("k", [48])]⟩ "k"
        (fun _ => Except.ok (0 : Nat)) 60 false (fun _ => [48]) (fun _ => 0)
        100 true true).state.breaker = ⟨5, 100, true⟩) :=
  ⟨breaker_reset_on_success_amended.1 Unit Nat
     ⟨⟨0, 0, 0, 0⟩, ⟨3, 0, false⟩, [("k", [48])]⟩ "k" (fun _ => Except.ok 0) 60 false
     (fun _ => [48]) (fun _ => 0) 0 true [48] rfl rfl (by decide),
   breaker_reset_on_success_amended.2.1 Unit Nat
     ⟨⟨0, 0, 0, 0⟩, ⟨3, 0, false⟩, []⟩ "k" (fun _ => Except.ok 0) 60 false
     (fun _ => [48]) (fun _ => 0) 0 0 rfl rfl rfl,
   breaker_reset_on_success_amended.2.2 Unit Nat
     ⟨⟨0, 0, 0, 0⟩, ⟨5, 100, true⟩, [("k", [48])]⟩ "k" (fun _ => Except.ok 0) 60 false
     (fun _ => [48]) (fun _ => 0) 100 true true 0 rfl (by decide) rfl⟩

/-- State after n consecutive getOrCompute calls on a cold key whose store reads
succeed, fetches succeed, and fire-and-forget writes all fail. -/
def writeFailState : Nat → CacheState
  | 0 => ⟨⟨0, 0, 0, 0⟩, ⟨0, 0, false⟩, []⟩
  | n + 1 => (cacheGetOrSet (ε := Unit) (writeFailState n) "k"
      (fun _ => Except.ok (0 : Nat)) 60 false (fun _ => [48]) (fun _ => 0)
      0 true false).state

/-- Counterexample to claim C8: after 5 consecutive cache-store write failures
the breaker is still closed with failure counter 1 (each call's successful miss
path resets the counter before the deferred write-failure handler records one),
and the 6th call does attempt a store read instead of bypassing the store. -/
theorem open_bypass_counterexample :
    (writeFailState 5).breaker.isOpen = false ∧
    (writeFailState 5).breaker.failures = 1 ∧
    (cacheGetOrSet (ε := Unit) (writeFailState 5) "k"
      (fun _ => Except.ok (0 : Nat)) 60 false (fun _ => [48]) (fun _ => 0)
      0 true false).storeReads = 1 :=
  ⟨by decide, by decide, by decide⟩

/-- Claim C8 amended: whenever the breaker reports open (cooldown not yet
elapsed) and the fetch succeeds, getOrCompute performs no store read and no
store write, returns exactly the fetcher's value, and changes no state besides
the total-request counter; but 5 consecutive store write failures do not open
the breaker: they leave the failure counter at 1 with the breaker closed, and
the 6th call still attempts a store read. -/
theorem open_bypass_amended :
    (∀ (ε α : Type) (st : CacheState) (key : String) (fetcher : Nat → Except ε α)
        (ttl : Nat) (c : Bool) (sg : α → List Nat) (pf : List Nat → α)
        (now : Nat) (getOk setOk : Bool) (v : α),
        st.breaker.isOpen = true → now - st.breaker.lastFailure ≤ resetTimeout →
        fetcher 0 = Except.ok v →
        cacheGetOrSet st key fetcher ttl c sg pf now getOk setOk =
          ⟨Except.ok v,
           ⟨⟨st.stats.hits, st.stats.misses, st.stats.errors, st.stats.totalRequests + 1⟩,
            st.breaker, st.store⟩,
           1, 0, 0⟩) ∧
    (writeFailState 5).breaker.isOpen = false ∧
    (writeFailState 5).breaker.failures = 1 ∧
    (cacheGetOrSet (ε := Unit) (writeFailState 5) "k"
      (fun _ => Except.ok (0 : Nat)) 60 false (fun _ => [48]) (fun _ => 0)
      0 true false).storeReads = 1 := by
  refine ⟨?_, by decide, by decide, by decide⟩
  intro ε α st key fetcher ttl c sg pf now getOk setOk v hopen htime hf
  exact cacheGetOrSet_open st key fetcher ttl c sg pf now getOk setOk v hopen htime hf

/-- Witness for the amended C8 at concrete inputs. -/
theorem open_bypass_amended_witness :
    cacheGetOrSet (ε := Unit) ⟨⟨2, 3, 4, 9⟩, ⟨5, 100, true⟩, [("k", [48])]⟩ "k"
        (fun _ => Except.ok (1 : Nat)) 60 false (fun _ => [48]) (fun _ => 0)
        100 true true =
      ⟨Except.ok 1, ⟨⟨2, 3, 4, 10⟩, ⟨5, 100, true⟩, [("k", [48])]⟩, 1, 0, 0⟩ :=
  open_bypass_amended.1 Unit Nat ⟨⟨2, 3, 4, 9⟩, ⟨5, 100, true⟩, [("k", [48])]⟩ "k"
    (fun _ => Except.ok 1) 60 false (fun _ => [48]) (fun _ => 0) 100 true true 1
    rfl (by decide) rfl

/-- Counterexample to claim C9: with 1 hit out of 2 total requests the reported
hitRate is 50 (a percentage rounded to two decimals), not the ratio 1/2. -/
theorem hit_rate_counterexample :
    getCacheStatsHitRate ⟨1, 1, 0, 2⟩ = 50 ∧ (50 : ℚ) ≠ (1 : ℚ) / 2 := by
  constructor
  · unfold getCacheStatsHitRate jsRound
    norm_num
  · norm_num

/-- Claim C9 amended: for totalRequests greater than 0 the reported hitRate is
the percentage hits over totalRequests times 100, rounded half-up to two
decimals; in particular it is within 1/200 of that percentage (and not the
plain ratio hits over totalRequests). -/
theorem hit_rate_amended (s : CacheStats) (h : 0 < s.totalRequests) :
    |getCacheStatsHitRate s - hitRatePercent s| ≤ 1 / 200 := by
  unfold getCacheStatsHitRate jsRound hitRatePercent
  rw [if_pos h]
  have h1 : (⌊(s.hits : ℚ) / (s.totalRequests : ℚ) * 100 * 100 + 1/2⌋ : ℚ)
      ≤ (s.hits : ℚ) / (s.totalRequests : ℚ) * 100 * 100 + 1/2 := Int.floor_le _
  have h2 : (s.hits : ℚ) / (s.totalRequests : ℚ) * 100 * 100 + 1/2 - 1
      < ⌊(s.hits : ℚ) / (s.totalRequests : ℚ) * 100 * 100 + 1/2⌋ := Int.sub_one_lt_floor _
  rw [abs_le]
  constructor
  · linarith
  · linarith

/-- Witness for the amended C9 at a concrete input. -/
theorem hit_rate_amended_witness :
    0 < (⟨1, 1, 0, 2⟩ : CacheStats).totalRequests ∧
    |getCacheStatsHitRate ⟨1, 1, 0, 2⟩ - hitRatePercent ⟨1, 1, 0, 2⟩| ≤ 1 / 200 :=
  ⟨by decide, hit_rate_amended ⟨1, 1, 0, 2⟩ (by decide)⟩

theorem resetSeconds_eq_ceil (w : Nat) :
    (((w + 999) / 1000 : Nat) : Int) = ⌈(w : ℚ) / 1000⌉ := by
  have h3 : w ≤ 1000 * ((w + 999) / 1000) := by omega
  have h4 : 1000 * ((w + 999) / 1000) < w + 1000 := by omega
  have h3q : (w : ℚ) ≤ 1000 * ((((w + 999) / 1000 : Nat) : Int) : ℚ) := by exact_mod_cast h3
  have h4q : 1000 * ((((w + 999) / 1000 : Nat) : Int) : ℚ) < (w : ℚ) + 1000 := by
    exact_mod_cast h4
  rw [eq_comm, Int.ceil_eq_iff]
  constructor
  · rw [lt_div_iff₀ (by norm_num : (0:ℚ) < 1000)]
    linarith
  · rw [div_le_iff₀ (by norm_num : (0:ℚ) < 1000)]
    linarith

/-- The per-key request count the spec describes, with the left window boundary
amended to be exclusive: recorded entries with timestamps in the half-open
interval from now minus windowMs (exclusive) to now (inclusive), plus the
current request's own entry. -/
def specWindowCount (entries : List Int) (now : Int) (window : Nat) : Nat :=
  (entries.filter (fun t => decide (now - (window : Int) < t ∧ t ≤ now))).length + 1

theorem rlStep_keep_all (entries : List Int) (now : Int) (window maxR : Nat)
    (hkeep : entries.filter (fun s => !decide (0 ≤ s ∧ s ≤ now - (window : Int)))
      = entries) :
    rlStep entries now window maxR =
      ({ exceeded := decide (entries.length + 1 > maxR),
         count := entries.length + 1,
         remaining := max 0 ((maxR : Int) - ((entries.length + 1 : Nat) : Int)),
         resetSeconds := (window + 999) / 1000,
         retryAfter := if entries.length + 1 > maxR then (window + 999) / 1000 else 0 },
       entries ++ [now]) := by
  simp only [rlStep]
  rw [hkeep]
  simp [List.length_append]

theorem rlRun_spec (times : List Int) (entries : List Int) (window maxR : Nat)
    (hent : ∀ s ∈ entries, 0 ≤ s ∧ ∀ t ∈ times, t - (window : Int) < s)
    (htimes : ∀ s ∈ times, 0 ≤ s ∧ ∀ t ∈ times, t - (window : Int) < s) :
    (rlRun entries times window maxR).map (fun r => (r.count, r.exceeded))
      = (List.range' (entries.length + 1) times.length).map
          (fun c => (c, decide (maxR < c))) := by
  induction times generalizing entries with
  | nil => rfl
  | cons t ts ih =>
    have hkeep : entries.filter (fun s => !decide (0 ≤ s ∧ s ≤ t - (window : Int)))
        = entries := by
      apply List.filter_eq_self.mpr
      intro s hs
      have h1 := (hent s hs).1
      have h2 := (hent s hs).2 t (by simp)
      simp only [Bool.not_eq_true', decide_eq_false_iff_not]
      omega
    have hent' : ∀ s ∈ entries ++ [t], 0 ≤ s ∧ ∀ t' ∈ ts, t' - (window : Int) < s := by
      intro s hs
      rcases List.mem_append.mp hs with hs | hs
      · exact ⟨(hent s hs).1, fun t' ht' => (hent s hs).2 t' (List.mem_cons_of_mem _ ht')⟩
      · rcases List.mem_singleton.mp hs with rfl
        exact ⟨(htimes s (List.mem_cons_self _ _)).1,
          fun t' ht' => (htimes s (List.mem_cons_self _ _)).2 t' (List.mem_cons_of_mem _ ht')⟩
    have htimes' : ∀ s ∈ ts, 0 ≤ s ∧ ∀ t' ∈ ts, t' - (window : Int) < s := by
      intro s hs
      exact ⟨(htimes s (List.mem_cons_of_mem _ hs)).1,
        fun t' ht' => (htimes s (List.mem_cons_of_mem _ hs)).2 t' (List.mem_cons_of_mem _ ht')⟩
    have ihx := ih (entries ++ [t]) hent' htimes'
    have hstep := rlStep_keep_all entries t window maxR hkeep
    simp only [rlRun, hstep, List.map_cons, List.length_cons, List.range']
    congr 1
    · rw [ihx]
      simp [List.length_append, Nat.add_assoc]

/-- Counterexample to claim C2: with one recorded entry at timestamp 0,
now = 60000 and windowMs = 60000, the claim's count over the closed interval
from now minus windowMs to now is 2 (the old entry sits exactly on the left
boundary), so with maxRequests = 1 the claim demands denial; but the MULTI
block removes scores up to and including now minus windowMs, so the code counts
1 and admits the request. -/
theorem rate_decision_counterexample :
    (([(0 : Int)].filter (fun t => decide (60000 - (60000 : Int) ≤ t ∧ t ≤ 60000))).length
      + 1 = 2) ∧
    ¬ (2 ≤ 1) ∧
    (rlStep [(0 : Int)] 60000 60000 1).1.exceeded = false :=
  ⟨by decide, by decide, by decide⟩

/-- Claim C2 amended: the counted entries are those with timestamps strictly
inside the window, in the half-open interval from now minus windowMs exclusive
to now inclusive, plus the current request; then the request is allowed iff
count is at most maxRequests, remaining is max 0 of maxRequests minus count,
resetSeconds is the ceiling of windowMs over 1000, and retryAfterSeconds equals
resetSeconds exactly when denied. Consequently the counts of consecutive
requests all lying within one window of each other are 1, 2, 3, and so on, with
a request denied exactly when its count exceeds maxRequests — in particular the
(N+1)th such request is denied for a tier of N — and a request whose window no
longer overlaps any recorded entry is admitted again with count restarting at
1. -/
theorem rate_decision_amended :
    (∀ (entries : List Int) (now : Int) (window maxR : Nat),
       0 < window → (∀ t ∈ entries, 0 ≤ t ∧ t ≤ now) →
       ((rlStep entries now window maxR).1.exceeded = false ↔
          specWindowCount entries now window ≤ maxR) ∧
       (rlStep entries now window maxR).1.count = specWindowCount entries now window ∧
       (rlStep entries now window maxR).1.remaining
         = max 0 ((maxR : Int) - (specWindowCount entries now window : Int)) ∧
       (((rlStep entries now window maxR).1.resetSeconds : Int) = ⌈(window : ℚ) / 1000⌉) ∧
       (rlStep entries now window maxR).1.retryAfter
         = (if (rlStep entries now window maxR).1.exceeded then
             (rlStep entries now window maxR).1.resetSeconds else 0)) ∧
    (∀ (times : List Int) (window maxR : Nat),
       (∀ s ∈ times, 0 ≤ s ∧ ∀ t ∈ times, t - (window : Int) < s) →
       (rlRun [] times window maxR).map (fun r => (r.count, r.exceeded))
         = (List.range' 1 times.length).map (fun c => (c, decide (maxR < c)))) ∧
    (∀ (entries : List Int) (now : Int) (window maxR : Nat),
       0 < maxR → (∀ t ∈ entries, 0 ≤ t ∧ t ≤ now - (window : Int)) →
       (rlStep entries now window maxR).1.count = 1 ∧
       (rlStep entries now window maxR).1.exceeded = false) := by
  refine ⟨?_, ?_, ?_⟩
  · intro entries now window maxR hw hb
    have hcongr : entries.filter (fun s => !decide (0 ≤ s ∧ s ≤ now - (window : Int)))
        = entries.filter (fun t => decide (now - (window : Int) < t ∧ t ≤ now)) := by
      apply List.filter_congr
      intro t ht
      have hbt := hb t ht
      rw [← decide_not, decide_eq_decide]
      omega
    refine ⟨?_, ?_, ?_, ?_, ?_⟩
    · simp only [rlStep, specWindowCount, hcongr, List.length_append, List.length_cons,
        List.length_nil, decide_eq_false_iff_not, gt_iff_lt, not_lt]
    · simp only [rlStep, specWindowCount, hcongr, List.length_append, List.length_cons,
        List.length_nil]
    · simp only [rlStep, specWindowCount, hcongr, List.length_append, List.length_cons,
        List.length_nil]
    · exact resetSeconds_eq_ceil window
    · rfl
  · intro times window maxR htimes
    simpa using rlRun_spec times [] window maxR (by simp) htimes
  · intro entries now window maxR hm hb
    have hdrop : entries.filter (fun s => !decide (0 ≤ s ∧ s ≤ now - (window : Int)))
        = [] := by
      rw [List.filter_eq_nil_iff]
      intro t ht
      have hbt := hb t ht
      simp only [Bool.not_eq_true', decide_eq_false_iff_not, not_not]
      exact hbt
    constructor
    · simp only [rlStep, hdrop]
      rfl
    · simp only [rlStep, hdrop]
      simp only [List.nil_append, List.length_cons, List.length_nil]
      exact decide_eq_false (by omega)

/-- Witness for the amended C2 at concrete inputs. -/
theorem rate_decision_amended_witness :
    ((0 : Nat) < 60000) ∧ (∀ t ∈ [(50000 : Int)], 0 ≤ t ∧ t ≤ 60000) ∧
    (((rlStep [(50000 : Int)] 60000 60000 1).1.exceeded = false ↔
        specWindowCount [(50000 : Int)] 60000 60000 ≤ 1) ∧
     (rlStep [(50000 : Int)] 60000 60000 1).1.count
       = specWindowCount [(50000 : Int)] 60000 60000 ∧
     (rlStep [(50000 : Int)] 60000 60000 1).1.remaining
       = max 0 ((1 : Int) - (specWindowCount [(50000 : Int)] 60000 60000 : Int)) ∧
     (((rlStep [(50000 : Int)] 60000 60000 1).1.resetSeconds : Int)
       = ⌈(60000 : ℚ) / 1000⌉) ∧
     (rlStep [(50000 : Int)] 60000 60000 1).1.retryAfter
       = (if (rlStep [(50000 : Int)] 60000 60000 1).1.exceeded then
           (rlStep [(50000 : Int)] 60000 60000 1).1.resetSeconds else 0)) ∧
    ((rlRun [] [(10 : Int), 20, 30] 60000 2).map (fun r => (r.count, r.exceeded))
       = (List.range' 1 3).map (fun c => (c, decide (2 < c)))) ∧
    ((rlStep [(0 : Int)] 70000 60000 1).1.count = 1 ∧
     (rlStep [(0 : Int)] 70000 60000 1).1.exceeded = false) :=
  ⟨by decide, by decide,
   rate_decision_amended.1 [(50000 : Int)] 60000 60000 1 (by decide) (by decide),
   rate_decision_amended.2.1 [(10 : Int), 20, 30] 60000 2 (by decide),
   rate_decision_amended.2.2 [(0 : Int)] 70000 60000 1 (by decide) (by decide)⟩

/-- Claim C4: when the shared counter store is unreachable or the atomic
rate-limit operation raises any error, the middleware admits the request
unconditionally (it proceeds to the handler), and a denial can only ever arise
from a successfully completed check that reported exceeded — a
limiter-infrastructure failure never produces a denial or a caller-visible
error. -/
theorem rate_limiter_fail_open :
    (∀ (e : Unit) (now : Int) (window maxRequests : Nat),
       middlewareRun (checkRateLimitE (Except.error e) now window maxRequests)
         = MwOutcome.next) ∧
    (∀ check : Except Unit CheckResult,
       middlewareRun check = MwOutcome.tooMany →
       ∃ r, check = Except.ok r ∧ r.exceeded = true) := by
  constructor
  · intro e now window maxRequests
    rfl
  · intro check h
    match check with
    | Except.error e => exact absurd h (by simp [middlewareRun])
    | Except.ok r =>
      refine ⟨r, rfl, ?_⟩
      by_cases hr : r.exceeded = true
      · exact hr
      · rw [middlewareRun, if_neg hr] at h
        exact absurd h (by simp)

/-- Witness for C4 at concrete inputs. -/
theorem rate_limiter_fail_open_witness :
    middlewareRun (checkRateLimitE (Except.error ()) 60000 60000 100) = MwOutcome.next ∧
    (∃ r, (Except.ok ⟨true, 2, 0, 60, 60⟩ : Except Unit CheckResult) = Except.ok r ∧
       r.exceeded = true) :=
  ⟨rate_limiter_fail_open.1 () 60000 60000 100,
   rate_limiter_fail_open.2 (Except.ok ⟨true, 2, 0, 60, 60⟩) rfl⟩

/-- Claim C10: invalidatePattern completes without raising an error to its
caller for every behavior of the store; when the pattern matches zero keys it
issues no deletion and leaves the store untouched; and when enumeration or
deletion fails the matching entries are left in place without the caller being
notified. -/
theorem invalidate_best_effort :
    (∀ (store : CacheStore) (pat : String → Bool) (keysOk delOk : Bool),
       (invalidatePattern store pat keysOk delOk).result = Except.ok ()) ∧
    (∀ (store : CacheStore) (pat : String → Bool) (delOk : Bool),
       store.filter (fun kv => pat kv.1) = [] →
       (invalidatePattern store pat true delOk).store = store ∧
       (invalidatePattern store pat true delOk).delIssued = false) ∧
    (∀ (store : CacheStore) (pat : String → Bool) (delOk : Bool),
       (invalidatePattern store pat false delOk).store = store ∧
       (invalidatePattern store pat false delOk).delIssued = false) ∧
    (∀ (store : CacheStore) (pat : String → Bool),
       (invalidatePattern store pat true false).store = store) := by
  refine ⟨?_, ?_, ?_, ?_⟩
  · intro store pat keysOk delOk
    unfold invalidatePattern
    split_ifs <;> first | rfl | (split <;> rfl)
  · intro store pat delOk hmatch
    unfold invalidatePattern
    simp [hmatch]
  · intro store pat delOk
    exact ⟨rfl, rfl⟩
  · intro store pat
    unfold invalidatePattern
    split_ifs <;> first | rfl | exact (by assumption : False).elim

/-- Witness for C10 at concrete inputs. -/
theorem invalidate_best_effort_witness :
    (invalidatePattern [("a", [1])] (fun _ => false) true true).result = Except.ok () ∧
    (([("a", [1])] : CacheStore).filter (fun kv => (fun _ => false) kv.1) = []) ∧
    (invalidatePattern [("a", [1])] (fun _ => false) true true).store = [("a", [1])] ∧
    (invalidatePattern [("a", [1])] (fun _ => false) true true).delIssued = false ∧
    (invalidatePattern [("a", [1])] (fun _ => true) true false).store = [("a", [1])] :=
  ⟨invalidate_best_effort.1 [("a", [1])] (fun _ => false) true true,
   rfl,
   (invalidate_best_effort.2.1 [("a", [1])] (fun _ => false) true rfl).1,
   (invalidate_best_effort.2.1 [("a", [1])] (fun _ => false) true rfl).2,
   invalidate_best_effort.2.2.2 [("a", [1])] (fun _ => true)⟩

/-- Counterexample to claim C6: the key builder is not collision-free on all
semantically distinct parameter sets — an animal id containing the reserved
separator collides with a different id plus the latest flag. -/
theorem key_builder_counterexample :
    sensorReadingKey "A:latest".toList false = sensorReadingKey "A".toList true ∧
    ("A:latest".toList, false) ≠ ("A".toList, true) :=
  ⟨by decide, by decide⟩

theorem append_sep_inj (sep : Char) :
    ∀ (s1 s2 r1 r2 : List Char), sep ∉ s1 → sep ∉ s2 →
      s1 ++ sep :: r1 = s2 ++ sep :: r2 → s1 = s2 ∧ r1 = r2 := by
  intro s1
  induction s1 with
  | nil =>
    intro s2 r1 r2 h1 h2 heq
    cases s2 with
    | nil => simpa using heq
    | cons b bs =>
      exfalso
      simp only [List.nil_append, List.cons_append, List.cons.injEq] at heq
      exact h2 (heq.1 ▸ List.mem_cons_self b bs)
  | cons a as ih =>
    intro s2 r1 r2 h1 h2 heq
    cases s2 with
    | nil =>
      exfalso
      simp only [List.nil_append, List.cons_append, List.cons.injEq] at heq
      exact h1 (heq.1 ▸ List.mem_cons_self a as)
    | cons b bs =>
      simp only [List.cons_append, List.cons.injEq] at heq
      obtain ⟨rfl, htail⟩ := heq
      have h1' : sep ∉ as := fun hm => h1 (List.mem_cons_of_mem _ hm)
      have h2' : sep ∉ bs := fun hm => h2 (List.mem_cons_of_mem _ hm)
      obtain ⟨rfl, hr⟩ := ih bs r1 r2 h1' h2' htail
      exact ⟨rfl, hr⟩

theorem joinWith_inj (sep : Char) :
    ∀ (ss1 ss2 : List (List Char)),
      (∀ s ∈ ss1, sep ∉ s) → (∀ s ∈ ss2, sep ∉ s) →
      ss1 ≠ [] → ss2 ≠ [] →
      joinWith sep ss1 = joinWith sep ss2 → ss1 = ss2 := by
  intro ss1
  induction ss1 with
  | nil => intro ss2 h1 h2 hn1 hn2 heq; exact absurd rfl hn1
  | cons s1 t1 ih =>
    intro ss2 h1 h2 hn1 hn2 heq
    cases ss2 with
    | nil => exact absurd rfl hn2
    | cons s2 t2 =>
      cases t1 with
      | nil =>
        cases t2 with
        | nil => simpa [joinWith] using heq
        | cons u2 v2 =>
          exfalso
          simp only [joinWith] at heq
          have : sep ∈ s1 := heq ▸ (List.mem_append.mpr (Or.inr (List.mem_cons_self _ _)))
          exact h1 s1 (List.mem_cons_self _ _) this
      | cons u1 v1 =>
        cases t2 with
        | nil =>
          exfalso
          simp only [joinWith] at heq
          have : sep ∈ s2 := heq ▸ (List.mem_append.mpr (Or.inr (List.mem_cons_self _ _)))
          exact h2 s2 (List.mem_cons_self _ _) this
        | cons u2 v2 =>
          simp only [joinWith] at heq
          obtain ⟨rfl, hrest⟩ := append_sep_inj sep s1 s2 _ _
            (h1 s1 (List.mem_cons_self _ _)) (h2 s2 (List.mem_cons_self _ _)) heq
          have := ih (u2 :: v2)
            (fun s hs => h1 s (List.mem_cons_of_mem _ hs))
            (fun s hs => h2 s (List.mem_cons_of_mem _ hs))
            (by simp) (by simp) hrest
          rw [this]

theorem jsFilterBoolean_skip_none (pre post : List (Option Seg)) :
    jsFilterBoolean (pre ++ none :: post) = jsFilterBoolean (pre ++ post) := by
  simp [jsFilterBoolean, List.filterMap_append, List.filterMap_cons]

theorem insertionSort_perm_invariant (ids1 ids2 : List Seg) (h : ids1.Perm ids2) :
    List.insertionSort (· ≤ ·) ids1 = List.insertionSort (· ≤ ·) ids2 :=
  List.eq_of_perm_of_sorted
    ((List.perm_insertionSort _ ids1).trans (h.trans (List.perm_insertionSort _ ids2).symm))
    (List.sorted_insertionSort _ ids1) (List.sorted_insertionSort _ ids2)

/-- Claim C6 amended: the key builder is a pure function; a batch key is
invariant under reordering of its id collection because the ids are sorted
before joining; omitted components are skipped rather than producing empty
segments; and keys are collision-free at the level of filtered segment lists
only for components that avoid the reserved separator — components containing
the separator can collide, as the counterexample shows. -/
theorem key_builder_amended :
    (∀ (ids1 ids2 : List Seg) (hours limitPerAnimal : Nat),
       ids1.Perm ids2 →
       batchSensorReadingsKey ids1 hours limitPerAnimal
         = batchSensorReadingsKey ids2 hours limitPerAnimal) ∧
    (∀ (pre post : List (Option Seg)),
       keyK (pre ++ none :: post) = keyK (pre ++ post)) ∧
    (∀ (p1 p2 : List (Option Seg)),
       (∀ s ∈ jsFilterBoolean p1, (':' : Char) ∉ s) →
       (∀ s ∈ jsFilterBoolean p2, (':' : Char) ∉ s) →
       keyK p1 = keyK p2 → jsFilterBoolean p1 = jsFilterBoolean p2) := by
  refine ⟨?_, ?_, ?_⟩
  · intro ids1 ids2 hours limitPerAnimal hperm
    unfold batchSensorReadingsKey
    rw [insertionSort_perm_invariant ids1 ids2 hperm]
  · intro pre post
    unfold keyK
    rw [jsFilterBoolean_skip_none]
  · intro p1 p2 h1 h2 heq
    unfold keyK at heq
    have hsep : (':' : Char) ∉ livestockSeg := by decide
    have := joinWith_inj ':' (livestockSeg :: jsFilterBoolean p1)
      (livestockSeg :: jsFilterBoolean p2)
      (by intro s hs
          rcases List.mem_cons.mp hs with rfl | hs
          · exact hsep
          · exact h1 s hs)
      (by intro s hs
          rcases List.mem_cons.mp hs with rfl | hs
          · exact hsep
          · exact h2 s hs)
      (by simp) (by simp) heq
    exact List.tail_eq_of_cons_eq this

/-- Witness for the amended C6 at concrete inputs. -/
theorem key_builder_amended_witness :
    (["b".toList, "a".toList] : List Seg).Perm ["a".toList, "b".toList] ∧
    batchSensorReadingsKey ["b".toList, "a".toList] 24 50
      = batchSensorReadingsKey ["a".toList, "b".toList] 24 50 ∧
    keyK [some "sensor".toList, none] = keyK [some "sensor".toList] ∧
    (∀ s ∈ jsFilterBoolean [some "ab".toList], (':' : Char) ∉ s) ∧
    (keyK [some "ab".toList] = keyK [some "ab".toList] →
      jsFilterBoolean [some "ab".toList] = jsFilterBoolean [some "ab".toList]) :=
  ⟨by decide,
   key_builder_amended.1 ["b".toList, "a".toList] ["a".toList, "b".toList] 24 50 (by decide),
   key_builder_amended.2.1 [some "sensor".toList] [],
   by decide,
   key_builder_amended.2.2 [some "ab".toList] [some "ab".toList] (by decide) (by decide)⟩
